import Mathlib

/-!
Verification development for the fetch-api repository: a thin client-side
HTTP request helper wrapping a browser fetch primitive, with JSON
(de)serialization, access-token refresh on 401, and optional conversion of
mixed JSON/file payloads into multipart form submissions.

The repository ships three variants of the client:
  - Fwr          : the minimal TypeScript variant (src/fwr.ts)
  - FetchApi     : the extended JavaScript variant (index.js), with the
                   convertToFormData flag, the conditional default-options
                   construction, and refresh failures surfacing the
                   original response error
  - FetchApiTS   : the extended TypeScript variant, whose conversion branch
                   inspects the body values before checking that a body is
                   present or that it is not already a multipart form

The embedding below is shallow: headers are an association list with
lowercased keys (mirroring the Headers class), the browser local storage
slot for the access token is an Option String, and the network is a script,
a list of responses consumed in order. Each run returns the outcome, the
final client state, the unconsumed part of the script, and the trace of
dispatched requests. Trace entries carry ghost metadata (the call site kind
and the refresh flag of the client-level call that issued them) so that
claims about retry counts and refresh flags are directly statable.
-/

/-- HTTP method, as in the FwrArgs / FetchApiArgs union type. -/
inductive Method where
  | GET
  | POST
  | PATCH
  | DELETE
deriving DecidableEq, Repr

/-- Entry value of a FormData object: a plain string or a binary blob,
the latter identified by its payload. -/
inductive FormEntry where
  | str (s : String)
  | blob (payload : String)
deriving DecidableEq, Repr

/-- JavaScript runtime values relevant to the client: JSON values plus the
File, FileList and FormData classes that the code inspects via instanceof. -/
inductive JVal where
  | null
  | bool (b : Bool)
  | num (n : Int)
  | str (s : String)
  | arr (elems : List JVal)
  | obj (fields : List (String × JVal))
  | file (payload : String)
  | fileList (payloads : List String)
  | form (entries : List (String × FormEntry))

/-- Truthiness of a JavaScript value. -/
def jvTruthy : JVal → Bool
  | .null => false
  | .bool b => b
  | .num n => n != 0
  | .str s => s != ""
  | _ => true

/-- test for the File class, mirroring instanceof File. -/
def JVal.isFile : JVal → Bool
  | .file _ => true
  | _ => false

/-- test for the FileList class, mirroring instanceof FileList. -/
def JVal.isFileList : JVal → Bool
  | .fileList _ => true
  | _ => false

/-- Property lookup on a JavaScript value, as in token.accessToken:
objects yield their field, every other value yields undefined (none). -/
def jlookup : JVal → String → Option JVal
  | .obj fields, k => fields.lookup k
  | _, _ => none

/-- hexadecimal digit, lowercase. -/
def hexDigit (n : Nat) : String :=
  if n = 0 then "0" else if n = 1 then "1" else if n = 2 then "2"
  else if n = 3 then "3" else if n = 4 then "4" else if n = 5 then "5"
  else if n = 6 then "6" else if n = 7 then "7" else if n = 8 then "8"
  else if n = 9 then "9" else if n = 10 then "a" else if n = 11 then "b"
  else if n = 12 then "c" else if n = 13 then "d" else if n = 14 then "e"
  else "f"

/-- JSON string escaping for one character, as performed by JSON.stringify. -/
def jsonEscapeChar (ch : Char) : String :=
  if ch = '\"' then "\\\""
  else if ch = '\\' then "\\\\"
  else if ch = '\n' then "\\n"
  else if ch = '\r' then "\\r"
  else if ch = '\t' then "\\t"
  else if ch.toNat = 8 then "\\b"
  else if ch.toNat = 12 then "\\f"
  else if ch.toNat < 32 then "\\u00" ++ hexDigit (ch.toNat / 16) ++ hexDigit (ch.toNat % 16)
  else String.mk [ch]

/-- JSON string escaping, as performed by JSON.stringify. -/
def jsonEscape (s : String) : String :=
  String.join (s.data.map jsonEscapeChar)

mutual

/-- model of JSON.stringify. File, FileList and FormData instances have no
own enumerable string-keyed properties, so they serialize as the empty
object. -/
def stringify : JVal → String
  | .null => "null"
  | .bool b => cond b "true" "false"
  | .num n => toString n
  | .str s => "\"" ++ jsonEscape s ++ "\""
  | .arr xs => "[" ++ stringifyList xs ++ "]"
  | .obj fs => "\x7b" ++ stringifyFields fs ++ "\x7d"
  | .file _ => "\x7b\x7d"
  | .fileList _ => "\x7b\x7d"
  | .form _ => "\x7b\x7d"

/-- comma separated serialization of array elements. -/
def stringifyList : List JVal → String
  | [] => ""
  | [x] => stringify x
  | x :: xs => stringify x ++ "," ++ stringifyList xs

/-- comma separated serialization of object fields. -/
def stringifyFields : List (String × JVal) → String
  | [] => ""
  | [(k, v)] => "\"" ++ jsonEscape k ++ "\":" ++ stringify v
  | (k, v) :: fs => "\"" ++ jsonEscape k ++ "\":" ++ stringify v ++ "," ++ stringifyFields fs

end

mutual

/-- string coercion of a JavaScript value, as in template literals. -/
def templ : JVal → String
  | .null => "null"
  | .bool b => cond b "true" "false"
  | .num n => toString n
  | .str s => s
  | .arr xs => templList xs
  | .obj _ => "[object Object]"
  | .file _ => "[object File]"
  | .fileList _ => "[object FileList]"
  | .form _ => "[object FormData]"

/-- Array.prototype.toString: elements joined by commas, with null holes
rendered empty. -/
def templList : List JVal → String
  | [] => ""
  | [.null] => ""
  | [x] => templ x
  | .null :: xs => "," ++ templList xs
  | x :: xs => templ x ++ "," ++ templList xs

end

/-- string coercion where undefined (none) renders as the word undefined. -/
def templOpt : Option JVal → String
  | none => "undefined"
  | some v => templ v

-- Headers: association list with lowercased keys, mirroring the
-- case-insensitive Headers class. Built only through hset and hdel.

/-- ASCII lowercase of one character, as applied by the Headers class to
header names. -/
def lowerChar (c : Char) : Char :=
  if 65 ≤ c.toNat ∧ c.toNat ≤ 90 then Char.ofNat (c.toNat + 32) else c

/-- ASCII lowercase of a header name. -/
def lowerStr (s : String) : String :=
  String.mk (s.data.map lowerChar)

/-- Headers.set: replace the value under a (case-insensitive) name, or
append the pair. -/
def hset : List (String × String) → String → String → List (String × String)
  | [], k, v => [((lowerStr k), v)]
  | (k', v') :: rest, k, v =>
    if k' = (lowerStr k) then (k', v) :: rest else (k', v') :: hset rest k v

/-- Headers.delete: remove every pair under a (case-insensitive) name. -/
def hdel (hs : List (String × String)) (k : String) : List (String × String) :=
  hs.filter (fun kv => kv.1 != (lowerStr k))

/-- Headers.get: look up the value under a (case-insensitive) name. -/
def hget (hs : List (String × String)) (k : String) : Option String :=
  hs.lookup (lowerStr k)

/-- new Headers(init): seed a header collection from a list of pairs. -/
def mkHeaders (init : List (String × String)) : List (String × String) :=
  init.foldl (fun a kv => hset a kv.1 kv.2) []

-- Stored request-options record: the object built by the constructors,
-- holding the live headers reference plus RequestInit entries.

/-- value stored in the request-options record: a plain option string or
the reference to the live headers collection. -/
inductive OptVal where
  | str (s : String)
  | headersRef
deriving DecidableEq, Repr

/-- request-options record, in object key order. -/
abbrev ORec := List (String × OptVal)

/-- JavaScript object key update: an existing key keeps its position and
gets the new value, a new key is appended. -/
def oinsert : ORec → String → OptVal → ORec
  | [], k, v => [(k, v)]
  | (k', v') :: rest, k, v =>
    if k' = k then (k', v) :: rest else (k', v') :: oinsert rest k v

/-- object spread: fold the added entries over the base record with object
key update semantics. -/
def ospread (base add : ORec) : ORec :=
  add.foldl (fun r kv => oinsert r kv.1 kv.2) base

/-- the defaultOptions constant of every variant. -/
def defaultOptions : ORec :=
  [("credentials", .str "include"), ("cache", .str "no-cache"), ("mode", .str "cors")]

/-- headers that the transport reads from the merged options record: the
live collection when the record holds the headers reference. -/
def resolveHeaders (o : ORec) (live : List (String × String)) : List (String × String) :=
  match o.lookup "headers" with
  | some OptVal.headersRef => live
  | _ => []

-- Requests, responses, outcomes.

/-- wire body of a dispatched request. -/
inductive WireBody where
  | str (s : String)
  | form (entries : List (String × FormEntry))
deriving DecidableEq, Repr

/-- ghost tag naming the program point that dispatched a request. -/
inductive ReqKind where
  | original
  | tokenFetch
  | retry
deriving DecidableEq, Repr

/-- record of one dispatched request: the resolved URL, method, headers
snapshot, wire body, plus ghost metadata (the call site kind and the
refresh flag of the client-level call that issued it). -/
structure SentRequest where
  kind : ReqKind
  url : String
  method : Method
  headers : List (String × String)
  body : Option WireBody
  refresh : Bool

/-- scripted transport response: a status code and the value produced by
response.json(). -/
structure HttpResponse where
  status : Nat
  jsonBody : JVal

/-- mutable client state: the live headers collection and the browser
local-storage slot under the accessToken key. -/
structure ClientState where
  headers : List (String × String)
  store : Option String

/-- token source: a URL path to fetch the token from, or a callable whose
invocation either resolves with a value or rejects. -/
inductive TokenSource where
  | url (path : String)
  | fn (result : Except Unit JVal)

/-- outcome of a client-level fetch call. -/
inductive Outcome where
  | ok (v : JVal)
  | errObj (status : Nat) (body : JVal)
  | failMsg (m : String)
  | jsTypeError
  | stuck

/-- result of running a client-level fetch call against a script: outcome,
final state, unconsumed script, and the trace of dispatched requests. -/
structure FetchResult where
  out : Outcome
  state : ClientState
  rem : List HttpResponse
  trace : List SentRequest

/-- nullish coalescing of the body against the empty object, as in the
expression serializing body with a default of the empty object literal. -/
def nullishBody : Option JVal → JVal
  | some .null => .obj []
  | none => .obj []
  | some v => v

/-- wire body computed before dispatch: for PATCH and POST a FormData body
passes through and anything else is JSON-serialized with a nullish body
defaulting to the empty object; GET and DELETE attach no body. -/
def mkWireBody (method : Method) (body : Option JVal) : Option WireBody :=
  if method = .POST || method = .PATCH then
    some (match body with
      | some (.form es) => .form es
      | _ => .str (stringify (nullishBody body)))
  else none

/-- setAuthHeader, identical in all variants: optionally set the
Fingerprint header, then copy a truthy persisted token into the
Authorization header. The store is never written. -/
def setAuthHeader (s : ClientState) (fingerprint : Option String) : ClientState :=
  let hs := match fingerprint with
    | some f => if f != "" then hset s.headers "Fingerprint" f else s.headers
    | none => s.headers
  match s.store with
  | some t =>
      if t != "" then
        { headers := hset hs "Authorization" ("Bearer " ++ t), store := s.store }
      else { headers := hs, store := s.store }
  | none => { headers := hs, store := s.store }

/-- deleteAuthHeader, identical in all variants: remove the Authorization
header and clear the persisted token. -/
def deleteAuthHeader (s : ClientState) : ClientState :=
  { headers := hdel s.headers "Authorization", store := none }

/-- token write performed by every successful refresh, identical in all
variants: set the Authorization header to the Bearer form of the
accessToken field and persist the same string to local storage. -/
def applyToken (s : ClientState) (v : JVal) : ClientState :=
  let t := templOpt (jlookup v "accessToken")
  { headers := hset s.headers "Authorization" ("Bearer " ++ t), store := some t }

namespace Fwr

/-- configuration of a Fwr instance: base URL, optional token source, and
the stored request-options record (this.options, never reassigned). -/
structure Config where
  baseUrl : String
  tokenSource : Option TokenSource
  options : ORec

/-- constructor options bag of Fwr: HeadersInit plus an optional
RequestInit record. -/
structure CtorOptions where
  headers : List (String × String)
  options : Option ORec

/-- Fwr constructor. The persisted parameter is the local-storage content
at construction time, which the constructor does not touch. The stored
options record is the spread of the caller RequestInit over the headers
reference; the nullish-coalescing fallback to defaultOptions in the source
is dead code, because an object literal is never nullish. -/
def new (baseUrl : String) (tokenSource : Option TokenSource)
    (opts : Option CtorOptions) (persisted : Option String) :
    Config × ClientState :=
  ({ baseUrl := baseUrl
   , tokenSource := tokenSource
   , options := ospread [("headers", .headersRef)] ((opts.bind (·.options)).getD []) }
  , { headers := mkHeaders ((opts.map (·.headers)).getD [])
    , store := persisted })

/-- body-encoding header mutation of Fwr.fetch: delete Content-Type for a
FormData body, otherwise set it to application/json. -/
def encodeHeaders (hs : List (String × String)) (body : Option JVal) :
    List (String × String) :=
  match body with
  | some (.form _) => hdel hs "Content-Type"
  | _ => hset hs "Content-Type" "application/json"

/-- Fwr.fetch specialized to refresh = false: this call never recurses,
because the 401 branch requires the refresh flag. Used by the refresh
sequence for both the token fetch and the retried request. -/
def fetchNR (kind : ReqKind) (c : Config) (s : ClientState)
    (script : List HttpResponse) (url : String) (method : Method)
    (body : Option JVal) : FetchResult :=
  let hs := encodeHeaders s.headers body
  let s1 : ClientState := { headers := hs, store := s.store }
  let req : SentRequest :=
    { kind := kind, url := c.baseUrl ++ url, method := method
    , headers := resolveHeaders c.options hs
    , body := mkWireBody method body, refresh := false }
  match script with
  | [] => ⟨.stuck, s1, [], [req]⟩
  | r :: rest =>
    if r.status = 200 || r.status = 201 then ⟨.ok r.jsonBody, s1, rest, [req]⟩
    else ⟨.errObj r.status r.jsonBody, s1, rest, [req]⟩

/-- Fwr.refreshToken: obtain a token (a GET through the client for a
string source, a direct call for a callable), on failure throw a synthetic
failed-to-get-token message, on success write the token into the
Authorization header and the store when it is truthy, then re-issue the
original request with refresh = false. The no-token-source branch clears
the store and throws a synthetic failed-to-refresh-token message; in this
variant it is unreachable from fetch, which guards on the token source. -/
def refreshToken (c : Config) (s : ClientState) (script : List HttpResponse)
    (url : String) (method : Method) (body : Option JVal) : FetchResult :=
  match c.tokenSource with
  | some (.url p) =>
      let r := fetchNR .tokenFetch c s script p .GET none
      match r.out with
      | .ok v =>
          let s2 := if jvTruthy v then applyToken r.state v else r.state
          let rr := fetchNR .retry c s2 r.rem url method body
          ⟨rr.out, rr.state, rr.rem, r.trace ++ rr.trace⟩
      | .stuck => ⟨.stuck, r.state, r.rem, r.trace⟩
      | _ => ⟨.failMsg "Failed to get token", r.state, r.rem, r.trace⟩
  | some (.fn res) =>
      match res with
      | .ok v =>
          let s2 := if jvTruthy v then applyToken s v else s
          let rr := fetchNR .retry c s2 script url method body
          ⟨rr.out, rr.state, rr.rem, rr.trace⟩
      | .error _ => ⟨.failMsg "Failed to get token", s, script, []⟩
  | none => ⟨.failMsg "Failed to refresh token", { headers := s.headers, store := none }, script, []⟩

/-- Fwr.fetch: encode the body, dispatch, return the parsed JSON on 200 or
201, invoke the refresh sequence on 401 when the refresh flag is set and a
token source is configured, and otherwise fail through the error path with
the status and parsed body of the response. -/
def fetch (c : Config) (s : ClientState) (script : List HttpResponse)
    (url : String) (method : Method) (body : Option JVal) (refresh : Bool) :
    FetchResult :=
  let hs := encodeHeaders s.headers body
  let s1 : ClientState := { headers := hs, store := s.store }
  let req : SentRequest :=
    { kind := .original, url := c.baseUrl ++ url, method := method
    , headers := resolveHeaders c.options hs
    , body := mkWireBody method body, refresh := refresh }
  match script with
  | [] => ⟨.stuck, s1, [], [req]⟩
  | r :: rest =>
    if r.status = 200 || r.status = 201 then ⟨.ok r.jsonBody, s1, rest, [req]⟩
    else if r.status = 401 && refresh then
      match c.tokenSource with
      | some _ =>
          let rr := refreshToken c s1 rest url method body
          ⟨rr.out, rr.state, rr.rem, req :: rr.trace⟩
      | none => ⟨.errObj r.status r.jsonBody, s1, rest, [req]⟩
    else ⟨.errObj r.status r.jsonBody, s1, rest, [req]⟩

/-- shorthand get. -/
def get (c : Config) (s : ClientState) (script : List HttpResponse)
    (url : String) : FetchResult :=
  fetch c s script url .GET none true

/-- shorthand post. -/
def post (c : Config) (s : ClientState) (script : List HttpResponse)
    (url : String) (body : JVal) : FetchResult :=
  fetch c s script url .POST (some body) true

/-- shorthand patch. -/
def patch (c : Config) (s : ClientState) (script : List HttpResponse)
    (url : String) (body : Option JVal) : FetchResult :=
  fetch c s script url .PATCH body true

/-- shorthand delete. -/
def del (c : Config) (s : ClientState) (script : List HttpResponse)
    (url : String) : FetchResult :=
  fetch c s script url .DELETE none true

end Fwr

-- Form-data conversion helper, identical in the extended JS and TS
-- variants.

/-- FormData.append coercion for one array element in the converter: a
File appends its blob, anything else is coerced to a string entry. -/
def appendVal : JVal → FormEntry
  | .file p => .blob p
  | v => .str (templ v)

/-- JavaScript object key update for the accumulated jsonData object. -/
def jinsert : List (String × JVal) → String → JVal → List (String × JVal)
  | [], k, v => [(k, v)]
  | (k', v') :: rest, k, v =>
    if k' = k then (k', v) :: rest else (k', v') :: jinsert rest k v

/-- key scan of toFormData: accumulate file fields (File blobs, FileList
members, and every element of an array containing a File) and the jsonData
object of the remaining keys. -/
def toFormDataLoop : List (String × JVal) → List (String × FormEntry) →
    List (String × JVal) → List (String × FormEntry) × List (String × JVal)
  | [], files, jsonData => (files, jsonData)
  | (k, v) :: rest, files, jsonData =>
    match v with
    | .file p => toFormDataLoop rest (files ++ [(k, .blob p)]) jsonData
    | .fileList ps =>
        toFormDataLoop rest (files ++ ps.map (fun p => (k, FormEntry.blob p))) jsonData
    | .arr xs =>
        if xs.any JVal.isFile then
          toFormDataLoop rest (files ++ xs.map (fun e => (k, appendVal e))) jsonData
        else toFormDataLoop rest files (jinsert jsonData k (.arr xs))
    | _ => toFormDataLoop rest files (jinsert jsonData k v)

/-- toFormData of the extended variants: scan the keys, then build the
final form with the serialized-json field first, followed by every
collected file field in append order. -/
def toFormData (data : List (String × JVal)) : List (String × FormEntry) :=
  let r := toFormDataLoop data [] []
  ("serialized-json", FormEntry.str (stringify (.obj r.2))) :: r.1

/-- own enumerable string-keyed entries of a JavaScript value, as visited
by for-in and Object.values: object fields, array elements under their
index keys, string characters under their index keys; File, FileList and
FormData instances expose none. -/
def ownEntries : JVal → List (String × JVal)
  | .obj fs => fs
  | .arr xs => (xs.enum).map (fun p => (toString p.1, p.2))
  | .str s => (s.data.enum).map (fun p => (toString p.1, JVal.str (String.mk [p.2])))
  | _ => []

/-- Object.values. -/
def objectValues (v : JVal) : List JVal :=
  (ownEntries v).map (·.2)

namespace FetchApi

/-- configuration of a FetchApi instance (the extended JS variant). -/
structure Config where
  baseUrl : String
  tokenSource : Option TokenSource
  options : ORec
  convertToFormData : Bool

/-- constructor options bag of the string-baseUrl form: HeadersInit, an
optional RequestInit record, and the convertToFormData member whose
presence is tested with the in operator. -/
structure CtorOptions where
  headers : List (String × String)
  options : Option ORec
  convertToFormData : Option Bool

/-- object-config constructor form. -/
structure CtorConfig where
  baseUrl : Option String
  headers : List (String × String)
  options : Option ORec
  tokenSource : Option TokenSource
  convertToFormData : Option Bool

/-- constructor argument of FetchApi: a string base URL with positional
arguments, a config object, or nothing. -/
inductive CtorArg where
  | str (baseUrl : String) (tokenSource : Option TokenSource) (opts : Option CtorOptions)
  | cfg (c : CtorConfig)
  | nothing

/-- FetchApi constructor: three branches on the first argument. Unlike the
TS variants, the stored options record is built with a conditional, so the
default policy is merged when the caller supplies no RequestInit. -/
def new (arg : CtorArg) (persisted : Option String) : Config × ClientState :=
  match arg with
  | .str baseUrl tokenSource opts =>
      ({ baseUrl := baseUrl
       , tokenSource := tokenSource
       , options :=
           match opts.bind (·.options) with
           | some o => ospread [("headers", .headersRef)] o
           | none => ospread [("headers", .headersRef)] defaultOptions
       , convertToFormData :=
           match opts with
           | some co => (co.convertToFormData).getD false
           | none => false }
      , { headers := mkHeaders ((opts.map (·.headers)).getD []), store := persisted })
  | .cfg cc =>
      ({ baseUrl := cc.baseUrl.getD "/"
       , tokenSource := cc.tokenSource
       , options :=
           match cc.options with
           | some o => ospread [("headers", .headersRef)] o
           | none => ospread [("headers", .headersRef)] defaultOptions
       , convertToFormData := cc.convertToFormData.getD false }
      , { headers := mkHeaders cc.headers, store := persisted })
  | .nothing =>
      ({ baseUrl := "/"
       , tokenSource := none
       , options := ospread [("headers", .headersRef)] defaultOptions
       , convertToFormData := false }
      , { headers := [], store := persisted })

/-- body-encoding step of FetchApi.fetch: a FormData body removes
Content-Type and skips the converter; otherwise, with a truthy body and
the conversion flag on, a File or FileList among the top-level values
converts the body to FormData and removes Content-Type, while every other
case sets Content-Type to application/json. Returns the updated headers
and the possibly converted body. -/
def encode (convert : Bool) (hs : List (String × String)) (body : Option JVal) :
    List (String × String) × Option JVal :=
  match body with
  | some (.form es) => (hdel hs "Content-Type", some (.form es))
  | some v =>
      if jvTruthy v && convert then
        if (objectValues v).any (fun el => el.isFile || el.isFileList) then
          (hdel hs "Content-Type", some (.form (toFormData (ownEntries v))))
        else (hset hs "Content-Type" "application/json", some v)
      else (hset hs "Content-Type" "application/json", some v)
  | none => (hset hs "Content-Type" "application/json", none)

/-- FetchApi.fetch specialized to refresh = false: the 401 branch requires
the refresh flag, so this call never recurses. -/
def fetchNR (kind : ReqKind) (c : Config) (s : ClientState)
    (script : List HttpResponse) (url : String) (method : Method)
    (body : Option JVal) : FetchResult :=
  let e := encode c.convertToFormData s.headers body
  let s1 : ClientState := { headers := e.1, store := s.store }
  let req : SentRequest :=
    { kind := kind, url := c.baseUrl ++ url, method := method
    , headers := resolveHeaders c.options e.1
    , body := mkWireBody method e.2, refresh := false }
  match script with
  | [] => ⟨.stuck, s1, [], [req]⟩
  | r :: rest =>
    if r.status = 200 || r.status = 201 then ⟨.ok r.jsonBody, s1, rest, [req]⟩
    else ⟨.errObj r.status r.jsonBody, s1, rest, [req]⟩

/-- FetchApi.refreshToken: called from the 401 branch with the original
response. A failure to obtain the token surfaces the original response
error; the no-token-source branch clears the persisted token and surfaces
the original response error; a successful token write re-issues the
original request with refresh = false. -/
def refreshToken (c : Config) (s : ClientState) (script : List HttpResponse)
    (resp : HttpResponse) (url : String) (method : Method)
    (body : Option JVal) : FetchResult :=
  match c.tokenSource with
  | some (.url p) =>
      let r := fetchNR .tokenFetch c s script p .GET none
      match r.out with
      | .ok v =>
          let s2 := if jvTruthy v then applyToken r.state v else r.state
          let rr := fetchNR .retry c s2 r.rem url method body
          ⟨rr.out, rr.state, rr.rem, r.trace ++ rr.trace⟩
      | .stuck => ⟨.stuck, r.state, r.rem, r.trace⟩
      | _ => ⟨.errObj resp.status resp.jsonBody, r.state, r.rem, r.trace⟩
  | some (.fn res) =>
      match res with
      | .ok v =>
          let s2 := if jvTruthy v then applyToken s v else s
          let rr := fetchNR .retry c s2 script url method body
          ⟨rr.out, rr.state, rr.rem, rr.trace⟩
      | .error _ => ⟨.errObj resp.status resp.jsonBody, s, script, []⟩
  | none =>
      ⟨.errObj resp.status resp.jsonBody, { headers := s.headers, store := none }, script, []⟩

/-- FetchApi.fetch: encode the body (with optional multipart conversion),
dispatch, return the parsed JSON on 200 or 201, call refreshToken on 401
with the refresh flag set (without guarding on the token source), and
otherwise fail through the error path. -/
def fetch (c : Config) (s : ClientState) (script : List HttpResponse)
    (url : String) (method : Method) (body : Option JVal) (refresh : Bool) :
    FetchResult :=
  let e := encode c.convertToFormData s.headers body
  let s1 : ClientState := { headers := e.1, store := s.store }
  let req : SentRequest :=
    { kind := .original, url := c.baseUrl ++ url, method := method
    , headers := resolveHeaders c.options e.1
    , body := mkWireBody method e.2, refresh := refresh }
  match script with
  | [] => ⟨.stuck, s1, [], [req]⟩
  | r :: rest =>
    if r.status = 200 || r.status = 201 then ⟨.ok r.jsonBody, s1, rest, [req]⟩
    else if r.status = 401 && refresh then
      let rr := refreshToken c s1 rest r url method e.2
      ⟨rr.out, rr.state, rr.rem, req :: rr.trace⟩
    else ⟨.errObj r.status r.jsonBody, s1, rest, [req]⟩

/-- shorthand get. -/
def get (c : Config) (s : ClientState) (script : List HttpResponse)
    (url : String) : FetchResult :=
  fetch c s script url .GET none true

/-- shorthand post. -/
def post (c : Config) (s : ClientState) (script : List HttpResponse)
    (url : String) (body : JVal) : FetchResult :=
  fetch c s script url .POST (some body) true

/-- shorthand patch. -/
def patch (c : Config) (s : ClientState) (script : List HttpResponse)
    (url : String) (body : Option JVal) : FetchResult :=
  fetch c s script url .PATCH body true

/-- shorthand delete. -/
def del (c : Config) (s : ClientState) (script : List HttpResponse)
    (url : String) : FetchResult :=
  fetch c s script url .DELETE none true

end FetchApi

namespace FetchApiTS

/-- configuration of a FetchApi instance of the extended TypeScript
variant, whose flag is spelled convertToFormdata. -/
structure Config where
  baseUrl : String
  tokenSource : Option TokenSource
  options : ORec
  convertToFormdata : Bool

/-- constructor options bag of the extended TypeScript variant. -/
structure CtorOptions where
  headers : List (String × String)
  options : Option ORec
  convertToFormdata : Option Bool

/-- constructor of the extended TypeScript variant: like Fwr (including
the dead nullish-coalescing fallback for the options record) plus the
conversion flag, whose presence is tested with the in operator. -/
def new (baseUrl : String) (tokenSource : Option TokenSource)
    (opts : Option CtorOptions) (persisted : Option String) :
    Config × ClientState :=
  ({ baseUrl := baseUrl
   , tokenSource := tokenSource
   , options := ospread [("headers", .headersRef)] ((opts.bind (·.options)).getD [])
   , convertToFormdata :=
       match opts with
       | some co => (co.convertToFormdata).getD false
       | none => false }
  , { headers := mkHeaders ((opts.map (·.headers)).getD [])
    , store := persisted })

/-- body-encoding step of the extended TypeScript variant. With the
conversion flag on it inspects Object.values of the body before checking
that a body is present or that it is not already a FormData instance: an
absent or null body raises a TypeError, and only a top-level File (not a
FileList) triggers conversion. With the flag off it behaves like Fwr. -/
def encodeE (convert : Bool) (hs : List (String × String))
    (body : Option JVal) : Except Unit (List (String × String) × Option JVal) :=
  if convert then
    match body with
    | none => .error ()
    | some .null => .error ()
    | some v =>
        if (objectValues v).any JVal.isFile then
          .ok (hdel hs "Content-Type", some (.form (toFormData (ownEntries v))))
        else .ok (hset hs "Content-Type" "application/json", some v)
  else
    match body with
    | some (.form es) => .ok (hdel hs "Content-Type", some (.form es))
    | _ => .ok (hset hs "Content-Type" "application/json", body)

/-- fetch of the extended TypeScript variant specialized to
refresh = false. -/
def fetchNR (kind : ReqKind) (c : Config) (s : ClientState)
    (script : List HttpResponse) (url : String) (method : Method)
    (body : Option JVal) : FetchResult :=
  match encodeE c.convertToFormdata s.headers body with
  | .error _ => ⟨.jsTypeError, s, script, []⟩
  | .ok e =>
    let s1 : ClientState := { headers := e.1, store := s.store }
    let req : SentRequest :=
      { kind := kind, url := c.baseUrl ++ url, method := method
      , headers := resolveHeaders c.options e.1
      , body := mkWireBody method e.2, refresh := false }
    match script with
    | [] => ⟨.stuck, s1, [], [req]⟩
    | r :: rest =>
      if r.status = 200 || r.status = 201 then ⟨.ok r.jsonBody, s1, rest, [req]⟩
      else ⟨.errObj r.status r.jsonBody, s1, rest, [req]⟩

/-- refreshToken of the extended TypeScript variant: identical to the Fwr
one (synthetic failure messages), but recursing through the encoding of
this variant. -/
def refreshToken (c : Config) (s : ClientState) (script : List HttpResponse)
    (url : String) (method : Method) (body : Option JVal) : FetchResult :=
  match c.tokenSource with
  | some (.url p) =>
      let r := fetchNR .tokenFetch c s script p .GET none
      match r.out with
      | .ok v =>
          let s2 := if jvTruthy v then applyToken r.state v else r.state
          let rr := fetchNR .retry c s2 r.rem url method body
          ⟨rr.out, rr.state, rr.rem, r.trace ++ rr.trace⟩
      | .stuck => ⟨.stuck, r.state, r.rem, r.trace⟩
      | _ => ⟨.failMsg "Failed to get token", r.state, r.rem, r.trace⟩
  | some (.fn res) =>
      match res with
      | .ok v =>
          let s2 := if jvTruthy v then applyToken s v else s
          let rr := fetchNR .retry c s2 script url method body
          ⟨rr.out, rr.state, rr.rem, rr.trace⟩
      | .error _ => ⟨.failMsg "Failed to get token", s, script, []⟩
  | none => ⟨.failMsg "Failed to refresh token", { headers := s.headers, store := none }, script, []⟩

/-- fetch of the extended TypeScript variant: the conversion-aware
encoding step (which can raise a TypeError before any dispatch), then the
Fwr dispatch and response handling with the guarded 401 branch. -/
def fetch (c : Config) (s : ClientState) (script : List HttpResponse)
    (url : String) (method : Method) (body : Option JVal) (refresh : Bool) :
    FetchResult :=
  match encodeE c.convertToFormdata s.headers body with
  | .error _ => ⟨.jsTypeError, s, script, []⟩
  | .ok e =>
    let s1 : ClientState := { headers := e.1, store := s.store }
    let req : SentRequest :=
      { kind := .original, url := c.baseUrl ++ url, method := method
      , headers := resolveHeaders c.options e.1
      , body := mkWireBody method e.2, refresh := refresh }
    match script with
    | [] => ⟨.stuck, s1, [], [req]⟩
    | r :: rest =>
      if r.status = 200 || r.status = 201 then ⟨.ok r.jsonBody, s1, rest, [req]⟩
      else if r.status = 401 && refresh then
        match c.tokenSource with
        | some _ =>
            let rr := refreshToken c s1 rest url method e.2
            ⟨rr.out, rr.state, rr.rem, req :: rr.trace⟩
        | none => ⟨.errObj r.status r.jsonBody, s1, rest, [req]⟩
      else ⟨.errObj r.status r.jsonBody, s1, rest, [req]⟩

/-- shorthand get. -/
def get (c : Config) (s : ClientState) (script : List HttpResponse)
    (url : String) : FetchResult :=
  fetch c s script url .GET none true

/-- shorthand delete. -/
def del (c : Config) (s : ClientState) (script : List HttpResponse)
    (url : String) : FetchResult :=
  fetch c s script url .DELETE none true

end FetchApiTS

/-- Boolean test for the ghost retry tag. -/
def SentRequest.isRetry (q : SentRequest) : Bool :=
  match q.kind with
  | .retry => true
  | _ => false

/-- Boolean test for a FormData body. -/
def isFormBody : Option JVal → Bool
  | some (.form _) => true
  | _ => false

/-- test whether a value is file-carrying in the sense of the converter: a
File, a FileList, or an array containing at least one File (follows the
spec wording for the non-file restriction). -/
def isFileValued : JVal → Bool
  | .file _ => true
  | .fileList _ => true
  | .arr xs => xs.any JVal.isFile
  | _ => false

/-- restriction of a body object to its non-file keys, in order (follows
the spec wording: keys whose value is neither a file, a file list, nor an
array containing a file). -/
def specNonFileKeys (data : List (String × JVal)) : List (String × JVal) :=
  data.filter (fun kv => !(isFileValued kv.2))

/-- file fields collected by the converter, in key order: the blob of a
File value, one blob per FileList member, and one entry per element of an
array containing at least one File (Files as blobs, other elements
coerced to strings). -/
def fileFields (data : List (String × JVal)) : List (String × FormEntry) :=
  data.flatMap (fun kv =>
    match kv.2 with
    | .file p => [(kv.1, FormEntry.blob p)]
    | .fileList ps => ps.map (fun p => (kv.1, FormEntry.blob p))
    | .arr xs =>
        cond (xs.any JVal.isFile) (xs.map (fun el => (kv.1, appendVal el))) []
    | _ => [])

-- Helper lemmas about the header collection.

theorem hget_hset_self (hs : List (String × String)) (k v : String) :
    hget (hset hs k v) k = some v := by
  induction hs with
  | nil => simp [hset, hget, List.lookup]
  | cons kv rest ih =>
    obtain ⟨k', v'⟩ := kv
    by_cases h : k' = (lowerStr k)
    · subst h
      simp [hset, hget, List.lookup]
    · have hb : ((lowerStr k) == k') = false := by
        simp only [beq_eq_false_iff_ne]
        exact fun hh => h hh.symm
      simpa [hset, h, hget, List.lookup, hb] using ih

theorem hget_hset_ne (hs : List (String × String)) (j k v : String)
    (h : (lowerStr j) ≠ (lowerStr k)) : hget (hset hs k v) j = hget hs j := by
  have hb : ((lowerStr j) == (lowerStr k)) = false := by
    simp only [beq_eq_false_iff_ne]
    exact h
  induction hs with
  | nil => simp [hset, hget, List.lookup, hb]
  | cons kv rest ih =>
    obtain ⟨k', v'⟩ := kv
    by_cases hk : k' = (lowerStr k)
    · subst hk
      simp [hset, hget, List.lookup, hb]
    · simp only [hset, hk, if_false, hget, List.lookup] at ih ⊢
      cases hbe : ((lowerStr j) == k') with
      | true => simp [hbe]
      | false => simpa [hbe] using ih

theorem hget_hdel_self (hs : List (String × String)) (k : String) :
    hget (hdel hs k) k = none := by
  induction hs with
  | nil => simp [hdel, hget, List.lookup]
  | cons kv rest ih =>
    obtain ⟨k', v'⟩ := kv
    by_cases h : k' = (lowerStr k)
    · subst h
      simpa [hdel, List.filter_cons] using ih
    · have hb : ((lowerStr k) == k') = false := by
        simp only [beq_eq_false_iff_ne]
        exact fun hh => h hh.symm
      have hne : (k' != (lowerStr k)) = true := by
        simp only [bne_iff_ne]
        exact h
      simpa [hdel, List.filter_cons, hne, hget, List.lookup, hb] using ih

theorem hget_hdel_ne (hs : List (String × String)) (j k : String)
    (h : (lowerStr j) ≠ (lowerStr k)) : hget (hdel hs k) j = hget hs j := by
  induction hs with
  | nil => simp [hdel, hget]
  | cons kv rest ih =>
    obtain ⟨k', v'⟩ := kv
    by_cases hk : k' = (lowerStr k)
    · subst hk
      have hb : ((lowerStr j) == (lowerStr k)) = false := by
        simp only [beq_eq_false_iff_ne]
        exact h
      simpa [hdel, List.filter_cons, hget, List.lookup, hb] using ih
    · have hne : (k' != (lowerStr k)) = true := by
        simp only [bne_iff_ne]
        exact hk
      simp only [hdel, List.filter_cons, hne, if_true] at ih ⊢
      cases hbe : ((lowerStr j) == k') with
      | true => simp [hget, List.lookup, hbe]
      | false => simpa [hget, List.lookup, hbe] using ih

-- Stratification sanity: the public fetch with the refresh flag off is
-- exactly the non-recursive specialization used inside the refresh
-- sequence (their ghost metadata included).

theorem Fwr.fwr_fetch_false_eq_fetchNR (c : Fwr.Config) (s : ClientState)
    (script : List HttpResponse) (url : String) (method : Method)
    (body : Option JVal) :
    Fwr.fetch c s script url method body false =
      Fwr.fetchNR .original c s script url method body := by
  cases script with
  | nil => rfl
  | cons r rest =>
    simp only [Fwr.fetch, Fwr.fetchNR, Bool.and_false]
    split <;> simp

theorem FetchApi.fa_fetch_false_eq_fetchNR (c : FetchApi.Config) (s : ClientState)
    (script : List HttpResponse) (url : String) (method : Method)
    (body : Option JVal) :
    FetchApi.fetch c s script url method body false =
      FetchApi.fetchNR .original c s script url method body := by
  cases script with
  | nil => rfl
  | cons r rest =>
    simp only [FetchApi.fetch, FetchApi.fetchNR, Bool.and_false]
    split <;> simp

-- Shape lemmas about the non-recursive Fwr fetch.

theorem Fwr.fetchNR_trace (kind : ReqKind) (c : Fwr.Config) (s : ClientState)
    (script : List HttpResponse) (url : String) (method : Method)
    (body : Option JVal) :
    (Fwr.fetchNR kind c s script url method body).trace =
      [{ kind := kind, url := c.baseUrl ++ url, method := method
       , headers := resolveHeaders c.options (Fwr.encodeHeaders s.headers body)
       , body := mkWireBody method body, refresh := false }] := by
  cases script with
  | nil => rfl
  | cons r rest =>
    simp only [Fwr.fetchNR]
    split <;> rfl

theorem Fwr.fetchNR_401 (kind : ReqKind) (c : Fwr.Config) (s : ClientState)
    (r : HttpResponse) (rest : List HttpResponse) (url : String)
    (method : Method) (body : Option JVal) (h : r.status = 401) :
    (Fwr.fetchNR kind c s (r :: rest) url method body).out =
        .errObj 401 r.jsonBody ∧
      (Fwr.fetchNR kind c s (r :: rest) url method body).rem = rest := by
  simp [Fwr.fetchNR, h]

theorem Fwr.fetchNR_ok (kind : ReqKind) (c : Fwr.Config) (s : ClientState)
    (r : HttpResponse) (rest : List HttpResponse) (url : String)
    (method : Method) (body : Option JVal)
    (h : r.status = 200 ∨ r.status = 201) :
    (Fwr.fetchNR kind c s (r :: rest) url method body).out =
        .ok r.jsonBody ∧
      (Fwr.fetchNR kind c s (r :: rest) url method body).rem = rest := by
  rcases h with h | h <;> simp [Fwr.fetchNR, h]

-- Properties of the Fwr refresh sequence, shared by the claims about the
-- 401 control flow.

theorem Fwr.refreshToken_trace_len (c : Fwr.Config) (s : ClientState)
    (script : List HttpResponse) (url : String) (method : Method)
    (body : Option JVal) :
    (Fwr.refreshToken c s script url method body).trace.length ≤ 2 := by
  cases hc : c.tokenSource with
  | none => simp [Fwr.refreshToken, hc]
  | some ts =>
    cases ts with
    | url p =>
      simp only [Fwr.refreshToken, hc]
      cases hro : (Fwr.fetchNR .tokenFetch c s script p .GET none).out <;>
        simp [Fwr.fetchNR_trace]
    | fn res =>
      cases res with
      | ok v => simp [Fwr.refreshToken, hc, Fwr.fetchNR_trace]
      | error e => simp [Fwr.refreshToken, hc]

theorem Fwr.refreshToken_retry_count (c : Fwr.Config) (s : ClientState)
    (script : List HttpResponse) (url : String) (method : Method)
    (body : Option JVal) :
    ((Fwr.refreshToken c s script url method body).trace.filter
        SentRequest.isRetry).length ≤ 1 := by
  cases hc : c.tokenSource with
  | none => simp [Fwr.refreshToken, hc]
  | some ts =>
    cases ts with
    | url p =>
      simp only [Fwr.refreshToken, hc]
      cases hro : (Fwr.fetchNR .tokenFetch c s script p .GET none).out <;>
        simp [Fwr.fetchNR_trace, SentRequest.isRetry]
    | fn res =>
      cases res with
      | ok v => simp [Fwr.refreshToken, hc, Fwr.fetchNR_trace, SentRequest.isRetry]
      | error e => simp [Fwr.refreshToken, hc]

theorem Fwr.refreshToken_flags (c : Fwr.Config) (s : ClientState)
    (script : List HttpResponse) (url : String) (method : Method)
    (body : Option JVal) :
    ∀ q ∈ (Fwr.refreshToken c s script url method body).trace,
      q.refresh = false ∧ q.kind ≠ ReqKind.original ∧
        (SentRequest.isRetry q = true →
          q.url = c.baseUrl ++ url ∧ q.method = method) := by
  cases hc : c.tokenSource with
  | none => simp [Fwr.refreshToken, hc]
  | some ts =>
    cases ts with
    | url p =>
      simp only [Fwr.refreshToken, hc]
      cases hro : (Fwr.fetchNR .tokenFetch c s script p .GET none).out <;>
        simp [Fwr.fetchNR_trace, SentRequest.isRetry]
    | fn res =>
      cases res with
      | ok v => simp [Fwr.refreshToken, hc, Fwr.fetchNR_trace, SentRequest.isRetry]
      | error e => simp [Fwr.refreshToken, hc]

theorem Fwr.refreshToken_url_ok_retry (c : Fwr.Config) (s : ClientState)
    (p : String) (r1 : HttpResponse) (rest2 : List HttpResponse)
    (url : String) (method : Method) (body : Option JVal)
    (hc : c.tokenSource = some (.url p))
    (h1 : r1.status = 200 ∨ r1.status = 201) :
    ((Fwr.refreshToken c s (r1 :: rest2) url method body).trace.filter
        SentRequest.isRetry).length = 1 := by
  have hro := Fwr.fetchNR_ok .tokenFetch c s r1 rest2 p .GET none h1
  simp only [Fwr.refreshToken, hc, hro.1]
  simp [Fwr.fetchNR_trace, SentRequest.isRetry]

theorem Fwr.refreshToken_fn_ok_retry (c : Fwr.Config) (s : ClientState)
    (script : List HttpResponse) (v : JVal) (url : String) (method : Method)
    (body : Option JVal) (hc : c.tokenSource = some (.fn (.ok v))) :
    ((Fwr.refreshToken c s script url method body).trace.filter
        SentRequest.isRetry).length = 1 := by
  simp [Fwr.refreshToken, hc, Fwr.fetchNR_trace, SentRequest.isRetry]

theorem Fwr.refreshToken_url_second_401 (c : Fwr.Config) (s : ClientState)
    (p : String) (r1 r2 : HttpResponse) (rest3 : List HttpResponse)
    (url : String) (method : Method) (body : Option JVal)
    (hc : c.tokenSource = some (.url p))
    (h1 : r1.status = 200 ∨ r1.status = 201) (h2 : r2.status = 401) :
    (Fwr.refreshToken c s (r1 :: r2 :: rest3) url method body).out =
        Outcome.errObj 401 r2.jsonBody ∧
      (Fwr.refreshToken c s (r1 :: r2 :: rest3) url method body).rem = rest3 := by
  have hro := Fwr.fetchNR_ok .tokenFetch c s r1 (r2 :: rest3) p .GET none h1
  simp only [Fwr.refreshToken, hc, hro.1, hro.2]
  constructor
  · exact (Fwr.fetchNR_401 _ _ _ _ _ _ _ _ h2).1
  · exact (Fwr.fetchNR_401 _ _ _ _ _ _ _ _ h2).2

theorem Fwr.refreshToken_fn_second_401 (c : Fwr.Config) (s : ClientState)
    (v : JVal) (r1 : HttpResponse) (rest1 : List HttpResponse)
    (url : String) (method : Method) (body : Option JVal)
    (hc : c.tokenSource = some (.fn (.ok v))) (h1 : r1.status = 401) :
    (Fwr.refreshToken c s (r1 :: rest1) url method body).out =
        Outcome.errObj 401 r1.jsonBody ∧
      (Fwr.refreshToken c s (r1 :: rest1) url method body).rem = rest1 := by
  simp only [Fwr.refreshToken, hc]
  constructor
  · exact (Fwr.fetchNR_401 _ _ _ _ _ _ _ _ h1).1
  · exact (Fwr.fetchNR_401 _ _ _ _ _ _ _ _ h1).2

theorem Fwr.fetch_401_unfold (c : Fwr.Config) (s : ClientState)
    (r0 : HttpResponse) (rest : List HttpResponse) (url : String)
    (method : Method) (body : Option JVal) (ts : TokenSource)
    (hts : c.tokenSource = some ts) (h401 : r0.status = 401) :
    Fwr.fetch c s (r0 :: rest) url method body true =
      { out := (Fwr.refreshToken c
            { headers := Fwr.encodeHeaders s.headers body, store := s.store }
            rest url method body).out
      , state := (Fwr.refreshToken c
            { headers := Fwr.encodeHeaders s.headers body, store := s.store }
            rest url method body).state
      , rem := (Fwr.refreshToken c
            { headers := Fwr.encodeHeaders s.headers body, store := s.store }
            rest url method body).rem
      , trace := { kind := .original, url := c.baseUrl ++ url, method := method
                 , headers := resolveHeaders c.options
                     (Fwr.encodeHeaders s.headers body)
                 , body := mkWireBody method body, refresh := true } ::
          (Fwr.refreshToken c
            { headers := Fwr.encodeHeaders s.headers body, store := s.store }
            rest url method body).trace } := by
  simp [Fwr.fetch, h401, hts]

/-- C1: for every request whose response has status 401, with the refresh
flag true and a token source configured, the Fwr client performs the
refresh sequence and re-issues the original request at most once, always
with refresh = false; when the token acquisition succeeds the re-issue
happens exactly once and targets the original URL and method; if that
retried request again receives a 401, the result is the error path with
the retried response, and no further request is dispatched or response
consumed: the 401/refresh recursion terminates after one retry, with at
most three dispatched requests in total. -/
theorem c1_refresh_single_retry
    (c : Fwr.Config) (s : ClientState) (r0 : HttpResponse)
    (rest : List HttpResponse) (url : String) (method : Method)
    (body : Option JVal) (ts : TokenSource)
    (hts : c.tokenSource = some ts) (h401 : r0.status = 401) :
    (Fwr.fetch c s (r0 :: rest) url method body true).trace.length ≤ 3 ∧
    ((Fwr.fetch c s (r0 :: rest) url method body true).trace.filter
        SentRequest.isRetry).length ≤ 1 ∧
    (∀ q ∈ (Fwr.fetch c s (r0 :: rest) url method body true).trace,
        q.kind ≠ ReqKind.original → q.refresh = false) ∧
    (∀ q ∈ (Fwr.fetch c s (r0 :: rest) url method body true).trace,
        SentRequest.isRetry q = true →
          q.url = c.baseUrl ++ url ∧ q.method = method ∧ q.refresh = false) ∧
    (∀ p r1 rest2, ts = TokenSource.url p → rest = r1 :: rest2 →
        (r1.status = 200 ∨ r1.status = 201) →
        ((Fwr.fetch c s (r0 :: rest) url method body true).trace.filter
            SentRequest.isRetry).length = 1) ∧
    (∀ v, ts = TokenSource.fn (.ok v) →
        ((Fwr.fetch c s (r0 :: rest) url method body true).trace.filter
            SentRequest.isRetry).length = 1) ∧
    (∀ p r1 r2 rest3, ts = TokenSource.url p → rest = r1 :: r2 :: rest3 →
        (r1.status = 200 ∨ r1.status = 201) → r2.status = 401 →
        (Fwr.fetch c s (r0 :: rest) url method body true).out =
            Outcome.errObj 401 r2.jsonBody ∧
          (Fwr.fetch c s (r0 :: rest) url method body true).rem = rest3) ∧
    (∀ v r1 rest1, ts = TokenSource.fn (.ok v) → rest = r1 :: rest1 →
        r1.status = 401 →
        (Fwr.fetch c s (r0 :: rest) url method body true).out =
            Outcome.errObj 401 r1.jsonBody ∧
          (Fwr.fetch c s (r0 :: rest) url method body true).rem = rest1) := by
  rw [Fwr.fetch_401_unfold c s r0 rest url method body ts hts h401]
  refine ⟨?_, ?_, ?_, ?_, ?_, ?_, ?_, ?_⟩
  · have := Fwr.refreshToken_trace_len c
      { headers := Fwr.encodeHeaders s.headers body, store := s.store }
      rest url method body
    simp only [List.length_cons]
    omega
  · have := Fwr.refreshToken_retry_count c
      { headers := Fwr.encodeHeaders s.headers body, store := s.store }
      rest url method body
    simpa [SentRequest.isRetry] using this
  · intro q hq hk
    simp only [List.mem_cons] at hq
    rcases hq with rfl | hq
    · exact absurd rfl hk
    · exact (Fwr.refreshToken_flags c _ rest url method body q hq).1
  · intro q hq hr
    simp only [List.mem_cons] at hq
    rcases hq with rfl | hq
    · simp [SentRequest.isRetry] at hr
    · have h := Fwr.refreshToken_flags c _ rest url method body q hq
      exact ⟨(h.2.2 hr).1, (h.2.2 hr).2, h.1⟩
  · rintro p r1 rest2 rfl rfl h1
    have := Fwr.refreshToken_url_ok_retry c
      { headers := Fwr.encodeHeaders s.headers body, store := s.store }
      p r1 rest2 url method body hts h1
    simpa [SentRequest.isRetry] using this
  · rintro v rfl
    have := Fwr.refreshToken_fn_ok_retry c
      { headers := Fwr.encodeHeaders s.headers body, store := s.store }
      rest v url method body hts
    simpa [SentRequest.isRetry] using this
  · rintro p r1 r2 rest3 rfl rfl h1 h2
    exact Fwr.refreshToken_url_second_401 c _ p r1 r2 rest3 url method body hts h1 h2
  · rintro v r1 rest1 rfl rfl h1
    exact Fwr.refreshToken_fn_second_401 c _ v r1 rest1 url method body hts h1

/-- witness for C1: a concrete client with a string token source, a 401,
a successful token fetch and a second 401 on the retry. -/
theorem c1_refresh_single_retry_witness :
    (⟨"https://api.example.com", some (.url "/refresh"),
        [("headers", .headersRef)]⟩ : Fwr.Config).tokenSource =
        some (TokenSource.url "/refresh") ∧
      (⟨401, JVal.null⟩ : HttpResponse).status = 401 ∧
      ((Fwr.fetch ⟨"https://api.example.com", some (.url "/refresh"),
          [("headers", .headersRef)]⟩ ⟨[], none⟩
          [⟨401, JVal.null⟩, ⟨200, JVal.obj [("accessToken", JVal.str "abc")]⟩,
            ⟨401, JVal.null⟩] "/items" .GET none true).trace.length ≤ 3) := by
  refine ⟨rfl, rfl, ?_⟩
  exact (c1_refresh_single_retry
    ⟨"https://api.example.com", some (.url "/refresh"), [("headers", .headersRef)]⟩
    ⟨[], none⟩ ⟨401, JVal.null⟩
    [⟨200, JVal.obj [("accessToken", JVal.str "abc")]⟩, ⟨401, JVal.null⟩]
    "/items" .GET none (TokenSource.url "/refresh") rfl rfl).1

/-- C2: on the FetchApi client constructed with base URL
https://api.example.com and string token source /refresh, a get of /items
whose first response is a 401, followed by a 200 token response with
accessToken abc and a 200 retry response with body containing an empty
items array, yields: the Authorization header set to Bearer abc, the
persisted token abc, a trace of exactly the original request, the token
fetch to https://api.example.com/refresh, and the retried GET to
https://api.example.com/items with refresh = false, and the final result
equal to the retry response body. -/
theorem c2_refresh_scenario :
    (FetchApi.get
        (FetchApi.new (.str "https://api.example.com"
            (some (.url "/refresh")) none) none).1
        (FetchApi.new (.str "https://api.example.com"
            (some (.url "/refresh")) none) none).2
        [⟨401, JVal.null⟩, ⟨200, JVal.obj [("accessToken", JVal.str "abc")]⟩,
          ⟨200, JVal.obj [("items", JVal.arr [])]⟩] "/items").out =
        Outcome.ok (JVal.obj [("items", JVal.arr [])]) ∧
      hget (FetchApi.get
        (FetchApi.new (.str "https://api.example.com"
            (some (.url "/refresh")) none) none).1
        (FetchApi.new (.str "https://api.example.com"
            (some (.url "/refresh")) none) none).2
        [⟨401, JVal.null⟩, ⟨200, JVal.obj [("accessToken", JVal.str "abc")]⟩,
          ⟨200, JVal.obj [("items", JVal.arr [])]⟩] "/items").state.headers
        "Authorization" = some "Bearer abc" ∧
      (FetchApi.get
        (FetchApi.new (.str "https://api.example.com"
            (some (.url "/refresh")) none) none).1
        (FetchApi.new (.str "https://api.example.com"
            (some (.url "/refresh")) none) none).2
        [⟨401, JVal.null⟩, ⟨200, JVal.obj [("accessToken", JVal.str "abc")]⟩,
          ⟨200, JVal.obj [("items", JVal.arr [])]⟩] "/items").state.store =
        some "abc" ∧
      (FetchApi.get
        (FetchApi.new (.str "https://api.example.com"
            (some (.url "/refresh")) none) none).1
        (FetchApi.new (.str "https://api.example.com"
            (some (.url "/refresh")) none) none).2
        [⟨401, JVal.null⟩, ⟨200, JVal.obj [("accessToken", JVal.str "abc")]⟩,
          ⟨200, JVal.obj [("items", JVal.arr [])]⟩] "/items").trace =
        [ { kind := .original, url := "https://api.example.com/items"
          , method := .GET
          , headers := [("content-type", "application/json")]
          , body := none, refresh := true }
        , { kind := .tokenFetch, url := "https://api.example.com/refresh"
          , method := .GET
          , headers := [("content-type", "application/json")]
          , body := none, refresh := false }
        , { kind := .retry, url := "https://api.example.com/items"
          , method := .GET
          , headers := [("content-type", "application/json"),
              ("authorization", "Bearer abc")]
          , body := none, refresh := false } ] ∧
      (FetchApi.get
        (FetchApi.new (.str "https://api.example.com"
            (some (.url "/refresh")) none) none).1
        (FetchApi.new (.str "https://api.example.com"
            (some (.url "/refresh")) none) none).2
        [⟨401, JVal.null⟩, ⟨200, JVal.obj [("accessToken", JVal.str "abc")]⟩,
          ⟨200, JVal.obj [("items", JVal.arr [])]⟩] "/items").rem = [] :=
  ⟨rfl, rfl, rfl, rfl, rfl⟩

-- Predicates and lemmas shared by the body-encoding claims.

theorem mkWireBody_not_form (method : Method) (body : Option JVal)
    (hb : isFormBody body = false) :
    mkWireBody method body =
      if method = .POST ∨ method = .PATCH then
        some (WireBody.str (stringify (nullishBody body)))
      else none := by
  cases body with
  | none => simp [mkWireBody]
  | some v => cases v <;> simp_all [mkWireBody, isFormBody]

theorem Fwr.encodeHeaders_not_form (hs : List (String × String))
    (body : Option JVal) (hb : isFormBody body = false) :
    Fwr.encodeHeaders hs body = hset hs "Content-Type" "application/json" := by
  cases body with
  | none => simp [Fwr.encodeHeaders]
  | some v => cases v <;> simp_all [Fwr.encodeHeaders, isFormBody]

theorem Fwr.fwr_fetch_trace_head (c : Fwr.Config) (s : ClientState)
    (script : List HttpResponse) (url : String) (method : Method)
    (body : Option JVal) (refresh : Bool) :
    (Fwr.fetch c s script url method body refresh).trace =
      { kind := .original, url := c.baseUrl ++ url, method := method
      , headers := resolveHeaders c.options (Fwr.encodeHeaders s.headers body)
      , body := mkWireBody method body, refresh := refresh } ::
        (Fwr.fetch c s script url method body refresh).trace.tail := by
  cases script with
  | nil => rfl
  | cons r rest =>
    simp only [Fwr.fetch]
    split
    · rfl
    · split
      · cases c.tokenSource <;> rfl
      · rfl

theorem FetchApi.encode_headers_preserve (convert : Bool)
    (hs : List (String × String)) (body : Option JVal) (k : String)
    (hk : lowerStr k ≠ lowerStr "Content-Type") :
    hget (FetchApi.encode convert hs body).1 k = hget hs k := by
  cases body with
  | none => exact hget_hset_ne hs k "Content-Type" "application/json" hk
  | some v =>
    cases v <;>
      simp only [FetchApi.encode] <;>
      first
        | exact hget_hdel_ne hs k "Content-Type" hk
        | (split
           · split
             · exact hget_hdel_ne hs k "Content-Type" hk
             · exact hget_hset_ne hs k "Content-Type" "application/json" hk
           · exact hget_hset_ne hs k "Content-Type" "application/json" hk)

/-- C3 counterexample: the claim that no operation writes the
Authorization header or the persisted token without the other fails on the
extended JS variant: a 401 with refresh enabled and no token source
configured clears the persisted token while leaving the Authorization
header in place, at the concrete input below (a client holding the header
Bearer old and the persisted token old). -/
theorem c3_counterexample :
    (FetchApi.fetch
        ⟨"b", none, [("headers", OptVal.headersRef)], false⟩
        ⟨[("authorization", "Bearer old")], some "old"⟩
        [⟨401, JVal.null⟩] "/x" .GET none true).state.store = none ∧
      hget (FetchApi.fetch
        ⟨"b", none, [("headers", OptVal.headersRef)], false⟩
        ⟨[("authorization", "Bearer old")], some "old"⟩
        [⟨401, JVal.null⟩] "/x" .GET none true).state.headers
        "Authorization" = some "Bearer old" :=
  ⟨rfl, rfl⟩

/-- C3 amended: every successful refresh writes both the Authorization
header (as Bearer followed by the token) and the persistent store with the
same token, and deleteAuthHeader removes the header and clears the store
together; however two operations touch one of the two alone: setAuthHeader
writes only the header (copying the persisted token when present, leaving
the store untouched), and the 401 path of the extended JS variant with no
token source clears the store while leaving the Authorization header
unchanged. -/
theorem c3_header_store_sync_amended :
    (∀ (s : ClientState) (v : JVal),
        hget (applyToken s v).headers "Authorization" =
            some ("Bearer " ++ templOpt (jlookup v "accessToken")) ∧
          (applyToken s v).store = some (templOpt (jlookup v "accessToken"))) ∧
    (∀ s : ClientState,
        (deleteAuthHeader s).store = none ∧
          hget (deleteAuthHeader s).headers "Authorization" = none) ∧
    (∀ (s : ClientState) (fp : Option String),
        (setAuthHeader s fp).store = s.store ∧
          (∀ t, s.store = some t → t ≠ "" →
            hget (setAuthHeader s fp).headers "Authorization" =
              some ("Bearer " ++ t))) ∧
    (∀ (c : FetchApi.Config) (s : ClientState) (r : HttpResponse)
        (rest : List HttpResponse) (url : String) (method : Method)
        (body : Option JVal), c.tokenSource = none → r.status = 401 →
        (FetchApi.fetch c s (r :: rest) url method body true).state.store =
            none ∧
          hget (FetchApi.fetch c s (r :: rest) url method body
              true).state.headers "Authorization" =
            hget s.headers "Authorization") := by
  refine ⟨?_, ?_, ?_, ?_⟩
  · intro s v
    exact ⟨hget_hset_self _ _ _, rfl⟩
  · intro s
    exact ⟨rfl, hget_hdel_self _ _⟩
  · intro s fp
    constructor
    · cases hs : s.store with
      | none => cases fp <;> simp [setAuthHeader, hs]
      | some t =>
        cases fp <;> simp [setAuthHeader, hs] <;> split <;> rfl
    · intro t ht htne
      cases fp with
      | none => simp [setAuthHeader, ht, htne, hget_hset_self]
      | some f => simp [setAuthHeader, ht, htne, hget_hset_self]
  · intro c s r rest url method body hts h401
    constructor
    · simp [FetchApi.fetch, FetchApi.refreshToken, hts, h401]
    · have hpr := FetchApi.encode_headers_preserve c.convertToFormData
        s.headers body "Authorization" (by decide)
      simp only [FetchApi.fetch, FetchApi.refreshToken, hts, h401]
      simpa using hpr

/-- witness for C3 amended, applying it at a concrete state, token value,
fingerprint, and 401 run. -/
theorem c3_header_store_sync_amended_witness :
    hget (applyToken ⟨[], none⟩
        (JVal.obj [("accessToken", JVal.str "abc")])).headers
      "Authorization" = some ("Bearer " ++ templOpt
        (jlookup (JVal.obj [("accessToken", JVal.str "abc")]) "accessToken")) ∧
    (deleteAuthHeader ⟨[("authorization", "Bearer x")], some "x"⟩).store =
      none ∧
    (FetchApi.fetch ⟨"b", none, [("headers", OptVal.headersRef)], false⟩
        ⟨[], some "x"⟩ [⟨401, JVal.null⟩] "/x" .GET none true).state.store =
      none :=
  ⟨(c3_header_store_sync_amended.1 ⟨[], none⟩
      (JVal.obj [("accessToken", JVal.str "abc")])).1,
   (c3_header_store_sync_amended.2.1
      ⟨[("authorization", "Bearer x")], some "x"⟩).1,
   (c3_header_store_sync_amended.2.2.2
      ⟨"b", none, [("headers", OptVal.headersRef)], false⟩ ⟨[], some "x"⟩
      ⟨401, JVal.null⟩ [] "/x" .GET none rfl rfl).1⟩

/-- C4: evaluation of the stored request-options record. The claim holds
on the extended JS variant (FetchApi): with no caller RequestInit the
stored record is the headers reference merged with the default policy of
credentials include, cache no-cache and mode cors, and with a caller
RequestInit it is the headers reference merged with that record instead.
The minimal variant (Fwr) and the extended TS variant contradict the claim
and their own visible intent: their nullish-coalescing fallback to
defaultOptions can never apply, because its left operand is an object
literal, so with no caller RequestInit the stored record holds only the
headers reference and no default policy — the failing input evaluated in
the last conjuncts. -/
theorem c4_options_record :
    (∀ (b : String) (ts : Option TokenSource) (p : Option String),
        (FetchApi.new (.str b ts none) p).1.options =
          ospread [("headers", OptVal.headersRef)] defaultOptions) ∧
    (∀ (b : String) (ts : Option TokenSource)
        (hs : List (String × String)) (cf : Option Bool) (p : Option String),
        (FetchApi.new (.str b ts (some ⟨hs, none, cf⟩)) p).1.options =
          ospread [("headers", OptVal.headersRef)] defaultOptions) ∧
    (∀ (b : String) (ts : Option TokenSource)
        (hs : List (String × String)) (o : ORec) (cf : Option Bool)
        (p : Option String),
        (FetchApi.new (.str b ts (some ⟨hs, some o, cf⟩)) p).1.options =
          ospread [("headers", OptVal.headersRef)] o) ∧
    (ospread [("headers", OptVal.headersRef)] defaultOptions =
      [("headers", OptVal.headersRef), ("credentials", OptVal.str "include"),
        ("cache", OptVal.str "no-cache"), ("mode", OptVal.str "cors")]) ∧
    (∀ (b : String) (ts : Option TokenSource) (p : Option String),
        (Fwr.new b ts none p).1.options = [("headers", OptVal.headersRef)]) ∧
    (∀ (b : String) (ts : Option TokenSource) (p : Option String),
        (FetchApiTS.new b ts none p).1.options =
          [("headers", OptVal.headersRef)]) ∧
    ([("headers", OptVal.headersRef)] ≠
      ospread [("headers", OptVal.headersRef)] defaultOptions) := by
  refine ⟨?_, ?_, ?_, by decide, ?_, ?_, by decide⟩
  · intro b ts p
    rfl
  · intro b ts hs cf p
    rfl
  · intro b ts hs o cf p
    rfl
  · intro b ts p
    rfl
  · intro b ts p
    rfl

/-- C5 counterexample: on the minimal variant (Fwr) a 401 with no token
source configured fails but does not clear the persisted token: at the
concrete input below the store still holds the token afterwards, where the
claim requires it to be cleared. The clearing branch of the Fwr refresh
sequence is unreachable, because Fwr.fetch guards the refresh call on a
configured token source. -/
theorem c5_counterexample :
    (Fwr.fetch ⟨"b", none, [("headers", OptVal.headersRef)]⟩
        ⟨[], some "tok"⟩ [⟨401, JVal.null⟩] "/x" .GET none true).out =
        Outcome.errObj 401 JVal.null ∧
      (Fwr.fetch ⟨"b", none, [("headers", OptVal.headersRef)]⟩
        ⟨[], some "tok"⟩ [⟨401, JVal.null⟩] "/x" .GET none true).state.store =
        some "tok" :=
  ⟨rfl, rfl⟩

/-- C5 amended: a 401 response with no configured token source always
terminates in a failure carrying the status and parsed body of the
response, with exactly one dispatched request and nothing further consumed
from the transport; the extended JS variant (FetchApi) additionally clears
the persisted token, while the minimal variant (Fwr) leaves the persisted
token unchanged. -/
theorem c5_no_token_source_401
    (c : FetchApi.Config) (cw : Fwr.Config) (s sw : ClientState)
    (r rw : HttpResponse) (rest restw : List HttpResponse)
    (url urlw : String) (method methodw : Method) (body bodyw : Option JVal)
    (hts : c.tokenSource = none) (h401 : r.status = 401)
    (htsw : cw.tokenSource = none) (h401w : rw.status = 401) :
    ((FetchApi.fetch c s (r :: rest) url method body true).out =
        Outcome.errObj 401 r.jsonBody ∧
      (FetchApi.fetch c s (r :: rest) url method body true).state.store =
        none ∧
      (FetchApi.fetch c s (r :: rest) url method body true).trace.length =
        1 ∧
      (FetchApi.fetch c s (r :: rest) url method body true).rem = rest) ∧
    ((Fwr.fetch cw sw (rw :: restw) urlw methodw bodyw true).out =
        Outcome.errObj 401 rw.jsonBody ∧
      (Fwr.fetch cw sw (rw :: restw) urlw methodw bodyw true).state.store =
        sw.store ∧
      (Fwr.fetch cw sw (rw :: restw) urlw methodw bodyw true).trace.length =
        1 ∧
      (Fwr.fetch cw sw (rw :: restw) urlw methodw bodyw true).rem = restw) := by
  constructor
  · refine ⟨?_, ?_, ?_, ?_⟩ <;>
      simp [FetchApi.fetch, FetchApi.refreshToken, hts, h401]
  · refine ⟨?_, ?_, ?_, ?_⟩ <;>
      simp [Fwr.fetch, htsw, h401w]

/-- witness for C5 amended at concrete clients with no token source and a
401 response. -/
theorem c5_no_token_source_401_witness :
    (FetchApi.fetch ⟨"b", none, [("headers", OptVal.headersRef)], false⟩
        ⟨[], some "x"⟩ [⟨401, JVal.null⟩] "/x" .GET none true).state.store =
      none ∧
    (Fwr.fetch ⟨"b", none, [("headers", OptVal.headersRef)]⟩
        ⟨[], some "x"⟩ [⟨401, JVal.null⟩] "/x" .GET none true).state.store =
      some "x" :=
  ⟨((c5_no_token_source_401
      ⟨"b", none, [("headers", OptVal.headersRef)], false⟩
      ⟨"b", none, [("headers", OptVal.headersRef)]⟩
      ⟨[], some "x"⟩ ⟨[], some "x"⟩ ⟨401, JVal.null⟩ ⟨401, JVal.null⟩
      [] [] "/x" "/x" .GET .GET none none rfl rfl rfl rfl).1).2.1,
   ((c5_no_token_source_401
      ⟨"b", none, [("headers", OptVal.headersRef)], false⟩
      ⟨"b", none, [("headers", OptVal.headersRef)]⟩
      ⟨[], some "x"⟩ ⟨[], some "x"⟩ ⟨401, JVal.null⟩ ⟨401, JVal.null⟩
      [] [] "/x" "/x" .GET .GET none none rfl rfl rfl rfl).2).2.1⟩

/-- C6: on the minimal variant, for every request whose body is not a
multipart form (in particular every plain JSON-serializable body), the
dispatched request carries the Content-Type header application/json, its
wire body for POST and PATCH equals the JSON serialization of the body
with an absent or null body defaulting to the empty object, and GET and
DELETE attach no body. The hypothesis on the stored options record states
that it holds the live headers reference, as every constructor run
establishes. -/
theorem c6_json_body_encoding
    (c : Fwr.Config) (s : ClientState) (script : List HttpResponse)
    (url : String) (method : Method) (body : Option JVal) (refresh : Bool)
    (hhdr : c.options.lookup "headers" = some OptVal.headersRef)
    (hb : isFormBody body = false) :
    ∃ req tl, (Fwr.fetch c s script url method body refresh).trace =
        req :: tl ∧
      hget req.headers "Content-Type" = some "application/json" ∧
      req.body = (if method = .POST ∨ method = .PATCH then
          some (WireBody.str (stringify (nullishBody body)))
        else none) ∧
      req.url = c.baseUrl ++ url ∧ req.method = method := by
  have hres : ∀ X : List (String × String), resolveHeaders c.options X = X :=
    fun X => by simp [resolveHeaders, hhdr]
  refine ⟨{ kind := .original, url := c.baseUrl ++ url, method := method
          , headers := resolveHeaders c.options
              (Fwr.encodeHeaders s.headers body)
          , body := mkWireBody method body, refresh := refresh },
    (Fwr.fetch c s script url method body refresh).trace.tail,
    ?_, ?_, ?_, rfl, rfl⟩
  · exact Fwr.fwr_fetch_trace_head c s script url method body refresh
  · simpa [hres, Fwr.encodeHeaders_not_form s.headers body hb] using
      hget_hset_self s.headers "Content-Type" "application/json"
  · simpa using mkWireBody_not_form method body hb

/-- witness for C6 at a concrete constructed client, a POST with a plain
JSON object body, and an empty transport script. -/
theorem c6_json_body_encoding_witness :
    ∃ req tl,
      (Fwr.fetch (Fwr.new "https://e.com" none none none).1
          (Fwr.new "https://e.com" none none none).2 [] "/p" .POST
          (some (JVal.obj [("foo", JVal.str "bar")])) true).trace =
        req :: tl ∧
      hget req.headers "Content-Type" = some "application/json" ∧
      req.body = (if Method.POST = Method.POST ∨ Method.POST = Method.PATCH
        then some (WireBody.str (stringify
          (nullishBody (some (JVal.obj [("foo", JVal.str "bar")])))))
        else none) ∧
      req.url = (Fwr.new "https://e.com" none none none).1.baseUrl ++ "/p" ∧
      req.method = Method.POST :=
  c6_json_body_encoding (Fwr.new "https://e.com" none none none).1
    (Fwr.new "https://e.com" none none none).2 [] "/p" .POST
    (some (JVal.obj [("foo", JVal.str "bar")])) true rfl rfl

theorem mkWireBody_form (method : Method) (es : List (String × FormEntry)) :
    mkWireBody method (some (.form es)) =
      if method = .POST ∨ method = .PATCH then some (WireBody.form es)
      else none := by
  simp [mkWireBody]

theorem FetchApi.fa_fetch_trace_head (c : FetchApi.Config) (s : ClientState)
    (script : List HttpResponse) (url : String) (method : Method)
    (body : Option JVal) (refresh : Bool) :
    (FetchApi.fetch c s script url method body refresh).trace =
      { kind := .original, url := c.baseUrl ++ url, method := method
      , headers := resolveHeaders c.options
          (FetchApi.encode c.convertToFormData s.headers body).1
      , body := mkWireBody method
          (FetchApi.encode c.convertToFormData s.headers body).2
      , refresh := refresh } ::
        (FetchApi.fetch c s script url method body refresh).trace.tail := by
  cases script with
  | nil => rfl
  | cons r rest =>
    simp only [FetchApi.fetch]
    split
    · rfl
    · split
      · rfl
      · rfl

theorem FetchApiTS.ts_fetch_trace_head (c : FetchApiTS.Config) (s : ClientState)
    (script : List HttpResponse) (url : String) (method : Method)
    (body : Option JVal) (refresh : Bool)
    (e : List (String × String) × Option JVal)
    (henc : FetchApiTS.encodeE c.convertToFormdata s.headers body =
      Except.ok e) :
    (FetchApiTS.fetch c s script url method body refresh).trace =
      { kind := .original, url := c.baseUrl ++ url, method := method
      , headers := resolveHeaders c.options e.1
      , body := mkWireBody method e.2, refresh := refresh } ::
        (FetchApiTS.fetch c s script url method body refresh).trace.tail := by
  cases script with
  | nil => simp [FetchApiTS.fetch, henc]
  | cons r rest =>
    simp only [FetchApiTS.fetch, henc]
    split
    · rfl
    · split
      · cases c.tokenSource <;> rfl
      · rfl

/-- C7 counterexample: the claim that a pre-built multipart body never
gets a Content-Type header fails on the extended TypeScript variant with
conversion enabled: at the concrete input below (a FormData body, flag
on), the conversion branch scans the (empty) enumerable values of the
FormData instance, finds no file, and sets Content-Type to
application/json on the dispatched request, while the claim requires no
Content-Type header regardless of the flag. -/
theorem c7_counterexample :
    (FetchApiTS.fetch ⟨"b", none, [("headers", OptVal.headersRef)], true⟩
        ⟨[], none⟩ [] "/x" .POST (some (.form [])) true).trace.map
        (fun q => (hget q.headers "Content-Type", q.body)) =
      [(some "application/json", some (WireBody.form []))] :=
  rfl

/-- C7 amended: a request whose body is a pre-built multipart form leaves
the body untouched and removes the Content-Type header before dispatch on
the extended JS variant regardless of the conversion flag, and on the
extended TS variant when conversion is disabled; with conversion enabled
the TS variant still dispatches the form body untouched but sets
Content-Type to application/json, because the conversion branch inspects
the body values without first checking for a FormData instance. -/
theorem c7_form_body_amended
    (c : FetchApi.Config) (ct : FetchApiTS.Config) (s st : ClientState)
    (script scriptt : List HttpResponse) (url urlt : String)
    (method methodt : Method) (es est : List (String × FormEntry))
    (refresh refresht : Bool)
    (hhdr : c.options.lookup "headers" = some OptVal.headersRef)
    (hhdrt : ct.options.lookup "headers" = some OptVal.headersRef)
    (hoff : ct.convertToFormdata = false) :
    (∃ req tl, (FetchApi.fetch c s script url method (some (.form es))
          refresh).trace = req :: tl ∧
        hget req.headers "Content-Type" = none ∧
        req.body = (if method = .POST ∨ method = .PATCH then
            some (WireBody.form es) else none)) ∧
    (∃ req tl, (FetchApiTS.fetch ct st scriptt urlt methodt
          (some (.form est)) refresht).trace = req :: tl ∧
        hget req.headers "Content-Type" = none ∧
        req.body = (if methodt = .POST ∨ methodt = .PATCH then
            some (WireBody.form est) else none)) := by
  constructor
  · refine ⟨_, _, FetchApi.fa_fetch_trace_head c s script url method
      (some (.form es)) refresh, ?_, ?_⟩
    · have : (FetchApi.encode c.convertToFormData s.headers
          (some (.form es))).1 = hdel s.headers "Content-Type" := rfl
      rw [this]
      simp [resolveHeaders, hhdr, hget_hdel_self]
    · have : (FetchApi.encode c.convertToFormData s.headers
          (some (.form es))).2 = some (.form es) := rfl
      rw [this, mkWireBody_form]
  · have henc : FetchApiTS.encodeE ct.convertToFormdata st.headers
        (some (.form est)) =
        Except.ok (hdel st.headers "Content-Type", some (.form est)) := by
      simp [FetchApiTS.encodeE, hoff]
    refine ⟨_, _, FetchApiTS.ts_fetch_trace_head ct st scriptt urlt methodt
      (some (.form est)) refresht _ henc, ?_, ?_⟩
    · simp [resolveHeaders, hhdrt, hget_hdel_self]
    · exact mkWireBody_form methodt est

/-- witness for C7 amended at concrete clients, a POST and a non-empty
form body. -/
theorem c7_form_body_amended_witness :
    ∃ req tl, (FetchApi.fetch
        ⟨"b", none, [("headers", OptVal.headersRef)], true⟩ ⟨[], none⟩ []
        "/x" .POST (some (.form [("f", FormEntry.blob "P")])) true).trace =
        req :: tl ∧
      hget req.headers "Content-Type" = none ∧
      req.body = (if Method.POST = Method.POST ∨ Method.POST = Method.PATCH
        then some (WireBody.form [("f", FormEntry.blob "P")]) else none) :=
  (c7_form_body_amended
    ⟨"b", none, [("headers", OptVal.headersRef)], true⟩
    ⟨"b", none, [("headers", OptVal.headersRef)], false⟩
    ⟨[], none⟩ ⟨[], none⟩ [] [] "/x" "/x" .POST .POST
    [("f", FormEntry.blob "P")] [] true true rfl rfl rfl).1

theorem FetchApi.encode_obj_files (hs : List (String × String))
    (fields : List (String × JVal))
    (hf : (fields.map Prod.snd).any
      (fun v => v.isFile || v.isFileList) = true) :
    FetchApi.encode true hs (some (.obj fields)) =
      (hdel hs "Content-Type", some (.form (toFormData fields))) := by
  simp [FetchApi.encode, objectValues, ownEntries, jvTruthy, hf]

/-- C8 counterexample: the claim that an array-valued key containing a
file triggers the multipart conversion fails on the extended JS variant:
at the concrete input below (conversion enabled, body holding one key with
an array containing a file), the top-level scan looks only for File and
FileList instances, finds none, and dispatches the JSON path — the
Content-Type header is application/json and the wire body is the JSON
serialization of the object with the file rendered as an empty object,
instead of a multipart form. -/
theorem c8_counterexample :
    (FetchApi.fetch ⟨"b", none, [("headers", OptVal.headersRef)], true⟩
        ⟨[], none⟩ [] "/x" .POST
        (some (JVal.obj [("xs", JVal.arr [JVal.file "F"])])) true).trace.map
        (fun q => (hget q.headers "Content-Type", q.body)) =
      [(some "application/json",
        some (WireBody.str "\x7b\"xs\":[\x7b\x7d]\x7d"))] :=
  rfl

/-- C8 amended: on the extended JS variant with conversion enabled, a body
object with at least one top-level File or FileList value is converted to
a multipart form and the Content-Type header is removed before dispatch;
an array-valued key containing a file does not trigger the conversion (the
extended TS variant triggers on single File values only; arrays are
handled inside the converter once conversion is triggered by another
key). -/
theorem c8_conversion_trigger_amended
    (c : FetchApi.Config) (s : ClientState) (script : List HttpResponse)
    (url : String) (method : Method) (fields : List (String × JVal))
    (refresh : Bool) (hflag : c.convertToFormData = true)
    (hhdr : c.options.lookup "headers" = some OptVal.headersRef)
    (hf : (fields.map Prod.snd).any
      (fun v => v.isFile || v.isFileList) = true) :
    ∃ req tl, (FetchApi.fetch c s script url method
        (some (.obj fields)) refresh).trace = req :: tl ∧
      hget req.headers "Content-Type" = none ∧
      req.body = (if method = .POST ∨ method = .PATCH then
          some (WireBody.form (toFormData fields)) else none) := by
  have henc : FetchApi.encode c.convertToFormData s.headers
      (some (.obj fields)) =
      (hdel s.headers "Content-Type", some (.form (toFormData fields))) := by
    rw [hflag]
    exact FetchApi.encode_obj_files s.headers fields hf
  refine ⟨_, _, FetchApi.fa_fetch_trace_head c s script url method
    (some (.obj fields)) refresh, ?_, ?_⟩
  · rw [henc]
    simp [resolveHeaders, hhdr, hget_hdel_self]
  · rw [henc]
    exact mkWireBody_form method (toFormData fields)

/-- witness for C8 amended at a concrete client and a body holding a
plain value and a file. -/
theorem c8_conversion_trigger_amended_witness :
    ∃ req tl, (FetchApi.fetch
        ⟨"b", none, [("headers", OptVal.headersRef)], true⟩ ⟨[], none⟩ []
        "/x" .POST (some (.obj [("a", JVal.num 1), ("file", JVal.file "P")]))
        true).trace = req :: tl ∧
      hget req.headers "Content-Type" = none ∧
      req.body = (if Method.POST = Method.POST ∨ Method.POST = Method.PATCH
        then some (WireBody.form
          (toFormData [("a", JVal.num 1), ("file", JVal.file "P")]))
        else none) :=
  c8_conversion_trigger_amended
    ⟨"b", none, [("headers", OptVal.headersRef)], true⟩ ⟨[], none⟩ []
    "/x" .POST [("a", JVal.num 1), ("file", JVal.file "P")] true
    rfl rfl rfl

-- Spec-side characterization of the form-data conversion, for the
-- refinement comparison of C9.

@[simp] theorem isFileValued_null : isFileValued .null = false := rfl

@[simp] theorem isFileValued_bool (b : Bool) :
    isFileValued (.bool b) = false := rfl

@[simp] theorem isFileValued_num (n : Int) :
    isFileValued (.num n) = false := rfl

@[simp] theorem isFileValued_str (t : String) :
    isFileValued (.str t) = false := rfl

@[simp] theorem isFileValued_arr (xs : List JVal) :
    isFileValued (.arr xs) = xs.any JVal.isFile := rfl

@[simp] theorem isFileValued_obj (fs : List (String × JVal)) :
    isFileValued (.obj fs) = false := rfl

@[simp] theorem isFileValued_file (p : String) :
    isFileValued (.file p) = true := rfl

@[simp] theorem isFileValued_fileList (ps : List String) :
    isFileValued (.fileList ps) = true := rfl

@[simp] theorem isFileValued_form (es : List (String × FormEntry)) :
    isFileValued (.form es) = false := rfl

theorem jinsert_not_mem (l : List (String × JVal)) (k : String) (v : JVal)
    (h : k ∉ l.map Prod.fst) : jinsert l k v = l ++ [(k, v)] := by
  induction l with
  | nil => rfl
  | cons kv rest ih =>
    obtain ⟨k', v'⟩ := kv
    simp only [List.map_cons, List.mem_cons] at h
    push_neg at h
    have hne : ¬ (k' = k) := fun hh => h.1 hh.symm
    simp only [jinsert, hne, if_false, List.cons_append, List.cons.injEq,
      true_and]
    exact ih h.2

theorem toFormDataLoop_spec (data : List (String × JVal)) :
    ∀ (files : List (String × FormEntry)) (jsonData : List (String × JVal)),
      (data.map Prod.fst).Nodup →
      (∀ k ∈ data.map Prod.fst, k ∉ jsonData.map Prod.fst) →
      toFormDataLoop data files jsonData =
        (files ++ fileFields data, jsonData ++ specNonFileKeys data) := by
  induction data with
  | nil =>
    intro files jsonData _ _
    simp [toFormDataLoop, fileFields, specNonFileKeys]
  | cons kv rest ih =>
    intro files jsonData hnd hdisj
    obtain ⟨k, v⟩ := kv
    simp only [List.map_cons, List.nodup_cons] at hnd
    have hk : k ∉ jsonData.map Prod.fst := hdisj k (by simp)
    have hdisj' : ∀ k' ∈ rest.map Prod.fst,
        k' ∉ (jsonData ++ [(k, v)]).map Prod.fst := by
      intro k' hk'
      simp only [List.map_append, List.mem_append, List.map_cons]
      push_neg
      refine ⟨hdisj k' (by simp [hk']), ?_⟩
      simp only [List.map_nil, List.mem_singleton]
      intro hkk
      exact hnd.1 (hkk ▸ hk')
    have hdisj'' : ∀ k' ∈ rest.map Prod.fst, k' ∉ jsonData.map Prod.fst :=
      fun k' hk' => hdisj k' (by simp [hk'])
    cases v
    case file p =>
      simp only [toFormDataLoop]
      rw [ih (files ++ [(k, FormEntry.blob p)]) jsonData hnd.2 hdisj'']
      simp [fileFields, specNonFileKeys, List.flatMap_cons, List.filter_cons]
    case fileList ps =>
      simp only [toFormDataLoop]
      rw [ih (files ++ ps.map (fun p => (k, FormEntry.blob p))) jsonData
        hnd.2 hdisj'']
      simp [fileFields, specNonFileKeys, List.flatMap_cons, List.filter_cons]
    case arr xs =>
      cases hf : xs.any JVal.isFile with
      | true =>
        have h1 : toFormDataLoop ((k, JVal.arr xs) :: rest) files jsonData =
            toFormDataLoop rest
              (files ++ xs.map (fun el => (k, appendVal el))) jsonData := by
          simp [toFormDataLoop, hf]
        have h2 : fileFields ((k, JVal.arr xs) :: rest) =
            xs.map (fun el => (k, appendVal el)) ++ fileFields rest := by
          simp [fileFields, List.flatMap_cons, hf]
        have h3 : specNonFileKeys ((k, JVal.arr xs) :: rest) =
            specNonFileKeys rest := by
          simp [specNonFileKeys, List.filter_cons, hf]
        rw [h1, ih _ jsonData hnd.2 hdisj'', h2, h3]
        simp
      | false =>
        have h1 : toFormDataLoop ((k, JVal.arr xs) :: rest) files jsonData =
            toFormDataLoop rest files (jinsert jsonData k (.arr xs)) := by
          simp [toFormDataLoop, hf]
        have h2 : fileFields ((k, JVal.arr xs) :: rest) = fileFields rest := by
          simp [fileFields, List.flatMap_cons, hf]
        have h3 : specNonFileKeys ((k, JVal.arr xs) :: rest) =
            (k, JVal.arr xs) :: specNonFileKeys rest := by
          simp [specNonFileKeys, List.filter_cons, hf]
        rw [h1, jinsert_not_mem _ _ _ hk, ih files _ hnd.2 hdisj', h2, h3]
        simp
    all_goals
      simp only [toFormDataLoop]
      rw [jinsert_not_mem _ _ _ hk]
      rw [ih files _ hnd.2 hdisj']
      simp [fileFields, specNonFileKeys, List.flatMap_cons, List.filter_cons]

/-- C9 counterexample: the claim that the fields after serialized-json are
one field per file value fails at the concrete input below, a body whose
single key holds an array containing a file and a plain string: the
converter appends every element of such an array, so the resulting form
holds a third field with the string element, while the claim predicts only
the serialized-json field and the single file field. -/
theorem c9_counterexample :
    toFormData [("k", JVal.arr [JVal.file "F", JVal.str "s"])] =
      [("serialized-json", FormEntry.str "\x7b\x7d"),
        ("k", FormEntry.blob "F"), ("k", FormEntry.str "s")] ∧
    toFormData [("k", JVal.arr [JVal.file "F", JVal.str "s"])] ≠
      [("serialized-json", FormEntry.str "\x7b\x7d"),
        ("k", FormEntry.blob "F")] :=
  ⟨rfl, by decide⟩

/-- C9 amended: for every plain key-value body object with distinct keys,
the converter produces a form whose first field is serialized-json holding
the JSON serialization of exactly the input object restricted to its
non-file keys (those whose value is neither a file, a file list, nor an
array containing a file), followed by the collected file fields in key
order: one field for a file value, one per member of a file list, and —
for an array-valued key containing at least one file — one field per
array element, files as blobs and non-file elements coerced to strings,
with repeated keys throughout; in particular, for the input holding a
number under a and a binary file under file, the serialized-json field is
the serialization of exactly the a field and the file field holds the
binary payload. -/
theorem c9_to_form_data_amended :
    (∀ data : List (String × JVal), (data.map Prod.fst).Nodup →
        toFormData data =
          ("serialized-json",
            FormEntry.str (stringify (.obj (specNonFileKeys data)))) ::
            fileFields data) ∧
    toFormData [("a", JVal.num 1), ("file", JVal.file "PAYLOAD")] =
      [("serialized-json", FormEntry.str "\x7b\"a\":1\x7d"),
        ("file", FormEntry.blob "PAYLOAD")] := by
  constructor
  · intro data hnd
    simp [toFormData, toFormDataLoop_spec data [] [] hnd (by simp)]
  · rfl

/-- witness for C9 amended, applying the general characterization at the
two-key example with a number and a file. -/
theorem c9_to_form_data_amended_witness :
    toFormData [("a", JVal.num 1), ("file", JVal.file "PAYLOAD")] =
      ("serialized-json", FormEntry.str (stringify
        (.obj (specNonFileKeys
          [("a", JVal.num 1), ("file", JVal.file "PAYLOAD")])))) ::
        fileFields [("a", JVal.num 1), ("file", JVal.file "PAYLOAD")] :=
  c9_to_form_data_amended.1
    [("a", JVal.num 1), ("file", JVal.file "PAYLOAD")] (by decide)

/-- C10: on the extended TypeScript variant with conversion enabled, every
request whose body is absent (in particular every get or delete call)
fails with a TypeError raised while scanning the body values, before any
network dispatch: the outcome is the TypeError, the client state is
untouched, no response is consumed and no request is dispatched. -/
theorem c10_absent_body_type_error
    (c : FetchApiTS.Config) (s : ClientState) (script : List HttpResponse)
    (url : String) (method : Method) (refresh : Bool)
    (hconv : c.convertToFormdata = true) :
    (FetchApiTS.fetch c s script url method none refresh).out =
        Outcome.jsTypeError ∧
      (FetchApiTS.fetch c s script url method none refresh).state = s ∧
      (FetchApiTS.fetch c s script url method none refresh).rem = script ∧
      (FetchApiTS.fetch c s script url method none refresh).trace = [] ∧
      (FetchApiTS.get c s script url).out = Outcome.jsTypeError ∧
      (FetchApiTS.del c s script url).out = Outcome.jsTypeError := by
  refine ⟨?_, ?_, ?_, ?_, ?_, ?_⟩ <;>
    simp [FetchApiTS.fetch, FetchApiTS.get, FetchApiTS.del,
      FetchApiTS.encodeE, hconv]

/-- witness for C10 at a concrete client with the conversion flag on and a
get call. -/
theorem c10_absent_body_type_error_witness :
    (FetchApiTS.fetch ⟨"b", none, [("headers", OptVal.headersRef)], true⟩
        ⟨[], none⟩ [⟨200, JVal.null⟩] "/x" .GET none true).out =
      Outcome.jsTypeError :=
  (c10_absent_body_type_error
    ⟨"b", none, [("headers", OptVal.headersRef)], true⟩ ⟨[], none⟩
    [⟨200, JVal.null⟩] "/x" .GET true rfl).1
